import Mathlib

/-!
Verification development for the pysimpleapp actor framework
(`pysimpleapp/message.py`, `pysimpleapp/threads/simple_threads.py`,
`pysimpleapp/threads/thread_manager.py`).

The Python code is shallowly embedded: stateful methods become pure
functions over explicit state records, Python exceptions become an
explicit `Option PyErr` (`some e` means the call raised `e`), message
receiver/sender paths are modelled as lists.  Sender-path entries are
`Option String` because the code can place Python `None` (a manager's
absent owner) into a sender path.
-/

namespace PySimpleApp

/-- A sender-path entry: `none` models Python `None` appearing in a path
(the top-level ThreadManager has `None` as its owner). -/
abbrev Ident := Option String

/-- The Python exception kinds raised or caught by the embedded code. -/
inductive PyErr
  | keyError
  | typeError
  | valueError
  | attributeError
  | indexError
  | timeoutError
deriving DecidableEq

/-- Python values appearing as positional arguments of `Message(...)` calls. -/
inductive PyVal
  | vStr (s : String)
  | vPath (p : List Ident)
  | vNone
deriving DecidableEq

/-- `Message` as defined in message.py: the dataclass-style record holds
exactly the three fields bound by `Message.__init__(self, sender, command,
package)`. -/
structure MessageRecord where
  sender : PyVal
  command : PyVal
  package : PyVal
deriving DecidableEq

/-- Calling `Message(...)` with a list of positional arguments.
`Message.__init__` in message.py declares exactly three parameters
`(sender, command, package)`, so any other number of positional arguments
raises `TypeError`. -/
def messageNew : List PyVal → Except PyErr MessageRecord
  | [s, c, p] => .ok ⟨s, c, p⟩
  | _ => .error .typeError

/-- The `Commands.THREAD_HANDLE` enum member of message.py: its value is
the string `"THREAD_HANDLE"`. -/
def Commands.THREAD_HANDLE : String := "THREAD_HANDLE"

/-! ## SimpleThread (simple_threads.py): state, handlers, dispatch -/

/-- Entries written to a worker's error log; each constructor corresponds
to one `logger.error`/`logging.error` call site in simple_threads.py. -/
inductive LogEntry
  | wrongReceiver (expected : String) (got : List String)
  | unknownCommand (cmd : String)
  | missingParameter (key : String)
  | nonDictUpdate
  | controlLoopError
deriving DecidableEq

/-- The mutable state of a `SimpleThread`: its name, the three control
flags touched by message handling, the parameter dictionary (an
association list with the dict's insertion order) and the error log.
(The `reset_flag` of the source is created but never read or written
afterwards, so it is omitted.) -/
structure WorkerState (V : Type) where
  name : String
  startFlag : Bool
  stopFlag : Bool
  endFlag : Bool
  parameters : List (String × V)
  errorLog : List LogEntry
deriving DecidableEq

/-- A message as the thread code reads it: `sender`, `receiver`,
`command` and `package` attributes.  A dict package is `some` association
list; `none` models any non-dict package. -/
structure WMsg (V : Type) where
  sender : List Ident
  receiver : List String
  command : String
  package : Option (List (String × V))
deriving DecidableEq

/-- Python `d[k]` lookup on a dict, first (unique) matching key. -/
def lookupP {V : Type} : List (String × V) → String → Option V
  | [], _ => none
  | kv :: rest, k => if kv.1 = k then some kv.2 else lookupP rest k

/-- Python `self.parameters[key] = value` when `key` is already present:
replace the value stored under `key` (dict keys are unique), leaving the
key set unchanged. -/
def updateOne {V : Type} : List (String × V) → String → V → List (String × V)
  | [], _, _ => []
  | kv :: rest, k, v =>
      (if kv.1 = k then (k, v) else kv) :: updateOne rest k v

/-- One iteration of the `for key, value in new_params.items()` loop of
`SimpleThread._update_params`: overwrite the parameter when the key is
present, otherwise log an error and skip it. -/
def applyParamUpdate {V : Type} (st : WorkerState V) (kv : String × V) :
    WorkerState V :=
  if kv.1 ∈ st.parameters.map Prod.fst then
    { st with parameters := updateOne st.parameters kv.1 kv.2 }
  else
    { st with errorLog := st.errorLog ++ [.missingParameter kv.1] }

/-- The whole `for` loop of `SimpleThread._update_params`, in dict
iteration order. -/
def applyParamUpdates {V : Type} (st : WorkerState V)
    (newParams : List (String × V)) : WorkerState V :=
  newParams.foldl applyParamUpdate st

/-- `SimpleThread._update_params`.  A non-dict package fails the
`assert type(new_params) == dict`, which is caught and logged — but the
subsequent `new_params.items()` call then raises `AttributeError`, which
is not caught here. -/
def updateParamsH {V : Type} (st : WorkerState V) (msg : WMsg V) :
    WorkerState V × Option PyErr :=
  match msg.package with
  | none =>
      ({ st with errorLog := st.errorLog ++ [.nonDictUpdate] },
       some .attributeError)
  | some newParams => (applyParamUpdates st newParams, none)

/-- `SimpleThread._thread_start`: set the start flag. -/
def threadStartH {V : Type} (st : WorkerState V) : WorkerState V :=
  { st with startFlag := true }

/-- `SimpleThread._thread_stop`: set the stop flag. -/
def threadStopH {V : Type} (st : WorkerState V) : WorkerState V :=
  { st with stopFlag := true }

/-- `SimpleThread._thread_end`: set the end flag. -/
def threadEndWorkerH {V : Type} (st : WorkerState V) : WorkerState V :=
  { st with endFlag := true }

/-- Tags for the values stored in `SimpleThread.address_book`. -/
inductive Handler
  | threadStart
  | threadStop
  | threadEnd
  | updateParams
  | customH
deriving DecidableEq

/-- The `address_book` dictionary built in `SimpleThread.__init__`.
The last key is the literal string of the source, `"THEAD_HANDLE"`
(sic — the source misspells `THREAD_HANDLE`). -/
def addressBook : List (String × Handler) :=
  [("THREAD_START", .threadStart),
   ("THREAD_STOP", .threadStop),
   ("THREAD_END", .threadEnd),
   ("THREAD_UPDATE", .updateParams),
   ("THEAD_HANDLE", .customH)]

/-- `self.address_book[message.command]`: dict lookup, `none` models the
`KeyError` case. -/
def lookupHandler (book : List (String × Handler)) (cmd : String) :
    Option Handler :=
  lookupP book cmd

/-- A user-supplied `custom_handler` override: reads the message and the
worker state, returns the updated state and, when it raised, the
exception (the state returned alongside an exception is the state at the
moment of the raise, since Python handlers mutate in place). -/
abbrev CustomHandler (V : Type) :=
  WMsg V → WorkerState V → WorkerState V × Option PyErr

/-- Running the handler found in the address book.  The built-in flag
handlers never raise; `_update_params` and the user handler may. -/
def interpHandler {V : Type} (custom : CustomHandler V) :
    Handler → WMsg V → WorkerState V → WorkerState V × Option PyErr
  | .threadStart, _, st => (threadStartH st, none)
  | .threadStop, _, st => (threadStopH st, none)
  | .threadEnd, _, st => (threadEndWorkerH st, none)
  | .updateParams, msg, st => updateParamsH st msg
  | .customH, msg, st => custom msg st

/-- `SimpleThread._message_handle`.  The receiver sanity check
`message.receiver == self.name or message.receiver == [self.name]`
collapses, for path-valued receivers, to equality with `[self.name]`.
The `try/except KeyError` wraps the whole expression
`self.address_book[message.command](message)`, so a `KeyError` raised
*inside* a handler is also caught and logged as an unknown command; any
other exception propagates to the caller. -/
def messageHandle {V : Type} (custom : CustomHandler V)
    (st : WorkerState V) (msg : WMsg V) : WorkerState V × Option PyErr :=
  if msg.receiver = [st.name] then
    match lookupHandler addressBook msg.command with
    | none =>
        ({ st with errorLog := st.errorLog ++ [.unknownCommand msg.command] },
         none)
    | some h =>
        match interpHandler custom h msg st with
        | (st', some .keyError) =>
            ({ st' with
                errorLog := st'.errorLog ++ [.unknownCommand msg.command] },
             none)
        | (st', some e) => (st', some e)
        | (st', none) => (st', none)
  else
    ({ st with errorLog := st.errorLog ++ [.wrongReceiver st.name msg.receiver] },
     none)

/-- One iteration of `SimpleThread.run`: handle the dequeued message,
then, if the start flag is up, clear it and run the variant's control
loop under `try/except Exception` (a control-loop exception is logged and
sets the end flag).  Any exception escaping `_message_handle` is *not*
caught: the iteration result carries it and the `while` loop is exited by
the unwinding exception. -/
def runStep {V : Type} (custom : CustomHandler V)
    (controlLoop : WorkerState V → WorkerState V × Option PyErr)
    (st : WorkerState V) (msg : WMsg V) : WorkerState V × Option PyErr :=
  match messageHandle custom st msg with
  | (st1, some e) => (st1, some e)
  | (st1, none) =>
      if st1.startFlag then
        let st2 := { st1 with startFlag := false }
        match controlLoop st2 with
        | (st3, none) => (st3, none)
        | (st3, some _) =>
            ({ st3 with
                endFlag := true
                errorLog := st3.errorLog ++ [.controlLoopError] }, none)
      else (st1, none)

/-! ## Repeating-thread timer callbacks (simple_threads.py) -/

/-- The worker state visible to a timer callback: the three control flags
and the worker's own inbound queue. -/
structure RepCallbackState where
  startFlag : Bool
  stopFlag : Bool
  endFlag : Bool
  queue : List MessageRecord
deriving DecidableEq

/-- `RepeatingThread.repeating_start`, the deferred timer callback of the
interval variant:
`self.input_queue.put(Message(self.name, self.name, "THREAD_REPEAT", None))`.
The four positional arguments are handed to `Message.__init__`. -/
def repeatingStartCb (name : String) (st : RepCallbackState) :
    RepCallbackState × Option PyErr :=
  match messageNew [.vStr name, .vStr name, .vStr "THREAD_REPEAT", .vNone] with
  | .ok m => ({ st with queue := st.queue ++ [m] }, none)
  | .error e => (st, some e)

/-- `PreciseRepeatingThread.repeating_start`, the deferred timer callback
of the precision variant: it first executes `self.start_flag.set()` and
then attempts the same `input_queue.put(Message(...))` as the interval
variant. -/
def preciseRepeatingStartCb (name : String) (st : RepCallbackState) :
    RepCallbackState × Option PyErr :=
  let st1 := { st with startFlag := true }
  match messageNew [.vStr name, .vStr name, .vStr "THREAD_REPEAT", .vNone] with
  | .ok m => ({ st1 with queue := st1.queue ++ [m] }, none)
  | .error e => (st1, some e)

/-! ## PreciseRepeatingThread scheduling (simple_threads.py) -/

/-- The state of a `PreciseRepeatingThread` read or written by its
scheduling code.  Times and durations are modelled as rationals.
`loopTimer` is the `parameters["loop_timer"]` entry (created in
`RepeatingThread.__init__` with value 1); user parameters under other
keys play no role in the scheduler and are omitted, as is the pending
`repeat_timer` object itself. -/
structure PreciseState where
  startFlag : Bool
  stopFlag : Bool
  newPredictionsFlag : Bool
  loopTimer : ℚ
  startedTime : ℚ
  mainRuns : ℕ
deriving DecidableEq

/-- The outcome of one `PreciseRepeatingThread._control_loop` call: the
state afterwards, the delay handed to `threading.Timer` (`none` when the
stop flag suppressed the run), and whether `TimeoutError` was raised at
the end (`repeat_time == 0.0`). -/
structure LoopOutcome where
  state : PreciseState
  scheduledDelay : Option ℚ
  timeoutRaised : Bool
deriving DecidableEq

/-- `PreciseRepeatingThread._control_loop`, with the wall-clock readings
`time.time()` before and after `self.main()` supplied as inputs
`mainStart` and `mainFinish`. -/
def preciseControlLoop (st : PreciseState) (mainStart mainFinish : ℚ) :
    LoopOutcome :=
  if st.stopFlag then ⟨st, none, false⟩
  else
    let st1 :=
      if st.newPredictionsFlag then
        { st with
            startedTime := mainStart
            mainRuns := 0
            newPredictionsFlag := false }
      else st
    let repeatTime : ℚ :=
      max 0
        (st1.loopTimer - (mainFinish - mainStart) +
          (st1.loopTimer * (st1.mainRuns : ℚ) + st1.startedTime - mainStart))
    ⟨{ st1 with mainRuns := st1.mainRuns + 1 }, some repeatTime,
      decide (repeatTime = 0)⟩

/-- `PreciseRepeatingThread._thread_start`: the inherited
`RepeatingThread._thread_start` raises the start flag, clears the stop
flag (and cancels a pending timer, not modelled here), then the override
additionally raises `new_predictions_flag`. -/
def preciseThreadStartCmd (st : PreciseState) : PreciseState :=
  { st with
      startFlag := true
      stopFlag := false
      newPredictionsFlag := true }

/-- `PreciseRepeatingThread.set_loop_timer`: when the package is a dict
containing a `"loop_timer"` key, `_update_params` overwrites the existing
`loop_timer` parameter and `new_predictions_flag` is raised; otherwise
the assertion failure is logged and nothing changes. -/
def setLoopTimerCmd (st : PreciseState) (pkg : Option (List (String × ℚ))) :
    PreciseState :=
  match pkg with
  | some d =>
      match lookupP d "loop_timer" with
      | some v =>
          { st with
              loopTimer := v
              newPredictionsFlag := true }
      | none => st
  | none => st

/-- Modelled from the spec: the delay formula
`delay = max(0, loop_timer − (run_finish − run_start) +
(loop_timer × run_count + epoch_time − run_start))`. -/
def specDelay (loopTimer epochTime : ℚ) (runCount : ℕ)
    (runStart runFinish : ℚ) : ℚ :=
  max 0
    (loopTimer - (runFinish - runStart) +
      (loopTimer * (runCount : ℚ) + epochTime - runStart))

/-! ## ThreadManager (thread_manager.py) -/

/-- A message as the `ThreadManager` reads it.  Sender entries are
`Ident` because a manager can prepend its own owner — possibly Python
`None` — to a sender path; receiver paths hold plain names (managers
"are always addressed with a list", per the module docstring).  Packages
are string-valued dicts (`none` models a non-dict package). -/
structure TMMsg where
  sender : List Ident
  receiver : List String
  command : String
  package : Option (List (String × String))
deriving DecidableEq

/-- The routing decision `ThreadManager._message_handle` takes for one
message (the state mutations of local dispatch are modelled separately on
`TMState`). -/
inductive RouteResult
  | localDispatch
  | toChild (child : String) (newReceiver : List String)
  | forwardUp (newSender : List Ident)
  | dropUnknownChild (child : String)
  | dropDestroyedSender (s : String)
  | dropShortSender
  | raise (e : PyErr)
deriving DecidableEq

/-- `message.sender[1] not in self.destroyed_threads`, negated: a `None`
entry is never a member of the set of destroyed (string) names. -/
def senderDestroyed (destroyed : List String) : Ident → Bool
  | some s => decide (s ∈ destroyed)
  | none => false

/-- The routing logic of `ThreadManager._message_handle` (run between the
two `garbage_collect` calls; `active` and `destroyed` are the manager's
collections at that point, `owner` its `self.owner`).  Branch order is
the source's: exact self-address → local dispatch; own name anywhere in
the receiver path → strip the first segment and deliver to the child
named by the new head when that child is active (no `else`: an unknown
child silently drops the message); otherwise forward upward — with
`self.owner` prepended to the sender path — unless the sender path is too
short or its second entry names a destroyed thread. -/
def tmRoute (name : String) (owner : Ident) (active : List String)
    (destroyed : List String) (msg : TMMsg) : RouteResult :=
  if msg.receiver = [name] then .localDispatch
  else if name ∈ msg.receiver then
    match msg.receiver.drop 1 with
    | [] => .raise .indexError
    | c :: rest =>
        if c ∈ active then .toChild c (c :: rest)
        else .dropUnknownChild c
  else
    if msg.sender.length > 1 then
      if senderDestroyed destroyed (msg.sender.getD 1 none) then
        .dropDestroyedSender ((msg.sender.getD 1 none).getD "")
      else
        .forwardUp (owner :: msg.sender)
    else .dropShortSender

/-- Entries of the manager's error log (one per `logger.error` call site
of thread_manager.py used below). -/
inductive TMLogEntry
  | missingNameOrType
  | threadTypeNotFound (ty : String)
  | nameInUse (nm : String)
  | destroyUnknown (nm : String)
  | alreadyDestroyed (nm : String)
deriving DecidableEq

/-- The supervisor state handled by the lifecycle operations: the
registered thread types, the names of the active children (dict keys, in
insertion order), the set of destroyed names, the end flag and the error
log.  The child thread objects themselves, their queues, and the
manager's own queues are not needed by the claims below. -/
structure TMState where
  name : String
  owner : Ident
  threadTypes : List (String × String)
  active : List String
  destroyed : List String
  endFlag : Bool
  errLog : List TMLogEntry
deriving DecidableEq

/-- Append one error-log entry. -/
def addTMLog (st : TMState) (e : TMLogEntry) : TMState :=
  { st with errLog := st.errLog ++ [e] }

/-- `ThreadManager.create_new_thread`: extract `thread_name` and
`thread_type` from the package (`KeyError` → logged, return); reject an
unknown type, then a name already in `active` (each logged, return);
otherwise construct the child — with its own fresh queue and its output
connected to the manager's input — and record its name in `active`. -/
def createNewThread (st : TMState) (pkg : List (String × String)) : TMState :=
  match lookupP pkg "thread_name", lookupP pkg "thread_type" with
  | some nm, some ty =>
      if ty ∈ st.threadTypes.map Prod.fst then
        if nm ∈ st.active then addTMLog st (.nameInUse nm)
        else { st with active := st.active ++ [nm] }
      else addTMLog st (.threadTypeNotFound ty)
  | _, _ => addTMLog st .missingNameOrType

/-- `ThreadManager.destroy_thread`: with a well-formed package, reject a
name not in `active` or already in `destroyed` (logged, return);
otherwise send the child an end command (queues not modelled) and add the
name to `destroyed`.  A package without `"thread_name"` makes the
`except KeyError` block call the logger object itself, which raises
before any state is touched, so the state is returned unchanged. -/
def destroyThread (st : TMState) (pkg : List (String × String)) : TMState :=
  match lookupP pkg "thread_name" with
  | some nm =>
      if nm ∈ st.active then
        if nm ∈ st.destroyed then addTMLog st (.alreadyDestroyed nm)
        else { st with destroyed := st.destroyed ++ [nm] }
      else addTMLog st (.destroyUnknown nm)
  | none => st

/-- `ThreadManager.garbage_collect`, with the set of names whose thread
`is_alive()` passed as the oracle `alive`: every active name not alive is
deleted from `active`, and each such deleted name is also removed from
`destroyed` when present. -/
def garbageCollect (alive : List String) (st : TMState) : TMState :=
  let inactive := st.active.filter fun n => n ∉ alive
  { st with
      active := st.active.filter fun n => n ∈ alive
      destroyed := st.destroyed.filter fun n => n ∉ inactive }

/-- `ThreadManager.set_thread_types`: `dict.update` on `thread_types` —
overwrite the value of each key already present, append the new keys. -/
def setThreadTypes (st : TMState) (pkg : List (String × String)) : TMState :=
  { st with
      threadTypes :=
        pkg.foldl
          (fun acc kv =>
            if kv.1 ∈ acc.map Prod.fst then updateOne acc kv.1 kv.2
            else acc ++ [kv])
          st.threadTypes }

/-- `ThreadManager._thread_end`: mark every active name destroyed
(`destroyed := set(active.keys())`), send each an end command (queues not
modelled), then garbage-collect in a loop until `active` is empty and
only then raise the end flag.  The successive `is_alive()` observations
of the loop iterations are supplied as `oracles`; when they do not empty
`active`, the source is still blocked in its `while` loop, modelled by
returning the intermediate state with the end flag still down. -/
def threadEndTM (st : TMState) (oracles : List (List String)) : TMState :=
  let st1 := { st with destroyed := st.active }
  let st2 := oracles.foldl (fun s a => garbageCollect a s) st1
  if st2.active = [] then { st2 with endFlag := true } else st2

/-- The supervisor-state operations reachable through message handling
(`_message_handle` also runs `garbage_collect` before and after each
message, which is the `gc` operation). -/
inductive TMOp
  | create (pkg : List (String × String))
  | destroy (pkg : List (String × String))
  | gc (alive : List String)
  | endCmd (oracles : List (List String))
  | setTypes (pkg : List (String × String))

/-- Apply one operation to the supervisor state. -/
def applyTMOp (st : TMState) : TMOp → TMState
  | .create pkg => createNewThread st pkg
  | .destroy pkg => destroyThread st pkg
  | .gc alive => garbageCollect alive st
  | .endCmd oracles => threadEndTM st oracles
  | .setTypes pkg => setThreadTypes st pkg

/-- `ThreadManager.__init__`: empty type registry, no active children,
no destroyed names. -/
def initTM (name : String) (owner : Ident) : TMState :=
  ⟨name, owner, [], [], [], false, []⟩

/-- The supervisor states reachable from construction by any sequence of
lifecycle operations. -/
inductive TMReachable : TMState → Prop
  | init (name : String) (owner : Ident) : TMReachable (initTM name owner)
  | step (st : TMState) (op : TMOp) :
      TMReachable st → TMReachable (applyTMOp st op)

/-! ## Concrete fixtures used by the closed theorems -/

/-- A worker state fixture: idle worker named `"W"` with one parameter. -/
def wSt0 : WorkerState Nat :=
  ⟨"W", false, false, false, [("p", 0)], []⟩

/-- A message reaching the user handler: the dispatch key actually
present in `address_book` is the misspelt `"THEAD_HANDLE"`. -/
def cMsg : WMsg Nat :=
  ⟨[some "X"], ["W"], "THEAD_HANDLE", none⟩

/-- A user handler that raises `ValueError` without touching the state. -/
def raisingHandler : CustomHandler Nat := fun _ st => (st, some .valueError)

/-- A user handler whose invocation is observable: it raises the stop
flag. -/
def markerHandler : CustomHandler Nat := fun _ st => (threadStopH st, none)

/-- A message carrying the documented custom-handle command
`THREAD_HANDLE`. -/
def hMsg : WMsg Nat :=
  ⟨[some "X"], ["W"], Commands.THREAD_HANDLE, none⟩

/-! ## Claim theorems -/

/-- C1 (counterexample): a custom handler that raises `ValueError` is
*not* caught at the dispatch boundary — `_message_handle` only catches
`KeyError` — so the exception escapes the `run` iteration: the loop exits
by unwinding while the end flag is still down, refuting "the exception is
caught at the dispatch boundary and logged, and the worker's control loop
keeps running". -/
theorem C1_counterexample :
    runStep raisingHandler (fun s => (s, none)) wSt0 cMsg =
      (wSt0, some PyErr.valueError) ∧
    wSt0.endFlag = false := by
  constructor
  · rfl
  · rfl

/-- C1 (amended): when a dispatched handler raises, the dispatch boundary
catches and logs the exception exactly when it is a `KeyError` (logged as
an unknown command); any other exception propagates unchanged out of
`_message_handle` and out of the `run` iteration, exiting the control
loop. -/
theorem C1_amended {V : Type} (custom : CustomHandler V)
    (controlLoop : WorkerState V → WorkerState V × Option PyErr)
    (st st' : WorkerState V) (msg : WMsg V) (e : PyErr)
    (hr : msg.receiver = [st.name])
    (hc : msg.command = "THEAD_HANDLE")
    (hcall : custom msg st = (st', some e)) :
    (e = .keyError →
      messageHandle custom st msg =
        ({ st' with errorLog := st'.errorLog ++ [.unknownCommand msg.command] },
         none)) ∧
    (e ≠ .keyError →
      messageHandle custom st msg = (st', some e) ∧
      runStep custom controlLoop st msg = (st', some e)) := by
  have hbook : lookupHandler addressBook msg.command = some .customH := by
    rw [hc]; rfl
  constructor
  · intro he
    subst he
    simp [messageHandle, hr, hbook, interpHandler, hcall]
  · intro hne
    have hmh : messageHandle custom st msg = (st', some e) := by
      simp only [messageHandle, hr, if_pos rfl, hbook, interpHandler, hcall]
      cases e with
      | keyError => exact absurd rfl hne
      | typeError => rfl
      | valueError => rfl
      | attributeError => rfl
      | indexError => rfl
      | timeoutError => rfl
    exact ⟨hmh, by simp only [runStep, hmh]⟩

/-- C1 (witness for the amended theorem): the concrete raising handler at
the concrete worker state and message. -/
theorem C1_amended_witness :
    messageHandle raisingHandler wSt0 cMsg = (wSt0, some PyErr.valueError) :=
  ((C1_amended raisingHandler (fun s => (s, none)) wSt0 wSt0 cMsg
      PyErr.valueError rfl rfl rfl).2 (by decide)).1

/-- C2 (code divergence, evaluated): a mid-hierarchy manager named `"M"`
owned by `"O"` forwards a message it does not own with `self.owner` —
not its own name — prepended to the sender path, and a root manager
(owner `None`) prepends `None` instead of forwarding unchanged.  The
module docstring of thread_manager.py says the manager's *name* is
prepended and that a root manager prepends nothing. -/
theorem C2_owner_prepended :
    tmRoute "M" (some "O") [] []
        ⟨[some "C", some "X"], ["Elsewhere"], "DATA", none⟩ =
      .forwardUp [some "O", some "C", some "X"] ∧
    tmRoute "M" none [] []
        ⟨[some "C", some "X"], ["Elsewhere"], "DATA", none⟩ =
      .forwardUp [none, some "C", some "X"] := by
  constructor
  · rfl
  · rfl

/-- C3: routing of addressed messages — a receiver path equal to
`[name]` is dispatched locally, and a receiver path led by the
supervisor's own name has that segment stripped and is delivered to the
child named by the new head of the path when that child is active,
dropped otherwise. -/
theorem C3_addressed_routing (name : String) (owner : Ident)
    (active destroyed : List String) (msg : TMMsg) :
    (msg.receiver = [name] →
      tmRoute name owner active destroyed msg = .localDispatch) ∧
    (∀ c rest, msg.receiver = name :: c :: rest →
      tmRoute name owner active destroyed msg =
        if c ∈ active then .toChild c (c :: rest)
        else .dropUnknownChild c) := by
  constructor
  · intro h
    simp [tmRoute, h]
  · intro c rest h
    have hne : name :: c :: rest ≠ [name] := by
      intro hEq
      exact absurd (congrArg List.length hEq) (by simp)
    have hmem : name ∈ name :: c :: rest := List.mem_cons_self ..
    simp only [tmRoute, h, if_neg hne, if_pos hmem, List.drop_succ_cons,
      List.drop_zero]

/-- C3 (witness): manager `"M"` with active child `"C"` routes
`["M", "C"]` to the child `"C"` with receiver stripped to `["C"]`. -/
theorem C3_addressed_routing_witness :
    tmRoute "M" (some "O") ["C"] []
        ⟨[some "E"], ["M", "C"], "THREAD_START", none⟩ =
      .toChild "C" ["C"] := by
  have h := (C3_addressed_routing "M" (some "O") ["C"] []
      ⟨[some "E"], ["M", "C"], "THREAD_START", none⟩).2 "C" [] rfl
  simpa using h

/-- C4 (code divergence, evaluated): the interval variant's deferred
callback `repeating_start` calls `Message(self.name, self.name,
"THREAD_REPEAT", None)` with four positional arguments, but
`Message.__init__` in message.py takes `(sender, command, package)`, so
the call raises `TypeError` and nothing is ever enqueued into the
worker's inbound queue. -/
theorem C4_callback_typeerror :
    repeatingStartCb "R" ⟨false, false, false, []⟩ =
      (⟨false, false, false, []⟩, some PyErr.typeError) ∧
    messageNew [.vStr "R", .vStr "R", .vStr "THREAD_REPEAT", .vNone] =
      .error PyErr.typeError := by
  constructor
  · rfl
  · rfl

/-- C6 (counterexample): the precision variant's deferred callback
`PreciseRepeatingThread.repeating_start` executes
`self.start_flag.set()` directly in the timer's execution context, so
enqueueing is not its only side effect: starting from a state with the
start flag down, the flag is up after the callback fires. -/
theorem C6_counterexample :
    ((preciseRepeatingStartCb "P" ⟨false, false, false, []⟩).1.startFlag
       = true) ∧
    ((⟨false, false, false, []⟩ : RepCallbackState).startFlag = false) := by
  constructor
  · rfl
  · rfl

/-- C6 (amended): the interval variant's deferred callback touches no
worker flag (its only attempted effect is constructing and enqueueing the
repeat message), whereas the precision variant's deferred callback sets
the worker's start flag directly from the timer context, leaving the
other flags untouched, before attempting the same enqueue. -/
theorem C6_amended (name : String) (st : RepCallbackState) :
    ((repeatingStartCb name st).1.startFlag = st.startFlag) ∧
    ((repeatingStartCb name st).1.stopFlag = st.stopFlag) ∧
    ((repeatingStartCb name st).1.endFlag = st.endFlag) ∧
    ((preciseRepeatingStartCb name st).1.startFlag = true) ∧
    ((preciseRepeatingStartCb name st).1.stopFlag = st.stopFlag) ∧
    ((preciseRepeatingStartCb name st).1.endFlag = st.endFlag) := by
  refine ⟨rfl, rfl, rfl, rfl, rfl, rfl⟩

/-- C7 (code divergence, evaluated): the documented custom-handle command
is `Commands.THREAD_HANDLE = "THREAD_HANDLE"` (message.py, and the
`_message_handle` docstring), but the dispatch table of
`SimpleThread.__init__` only has the misspelt key `"THEAD_HANDLE"`, so a
`THREAD_HANDLE` message falls into the `KeyError` branch and is logged as
an unknown command — the user handler (here `markerHandler`, which would
raise the stop flag) is never invoked. -/
theorem C7_thread_handle_bug :
    lookupHandler addressBook Commands.THREAD_HANDLE = none ∧
    lookupHandler addressBook "THEAD_HANDLE" = some Handler.customH ∧
    messageHandle markerHandler wSt0 hMsg =
      ({ wSt0 with
          errorLog := wSt0.errorLog ++ [.unknownCommand "THREAD_HANDLE"] },
       none) ∧
    (messageHandle markerHandler wSt0 hMsg).1.stopFlag = false := by
  refine ⟨rfl, rfl, rfl, rfl⟩

/-- C5: whenever the stop flag is down, a `_control_loop` run of the
precision variant schedules the next run after exactly the spec's delay
`max(0, loop_timer − (run_finish − run_start) + (loop_timer × run_count +
epoch_time − run_start))`, where the epoch and the run count are the
stored `started_time`/`main_runs` — reset to the run's own start time and
zero when `new_predictions_flag` is up, which is exactly the flag raised
by a start command and by a well-formed set-loop-timer command — and the
run count increments after the run. -/
theorem C5_precise_delay (st : PreciseState) (s f : ℚ)
    (h : st.stopFlag = false) :
    ((preciseControlLoop st s f).scheduledDelay =
      some (specDelay st.loopTimer
        (if st.newPredictionsFlag then s else st.startedTime)
        (if st.newPredictionsFlag then 0 else st.mainRuns) s f)) ∧
    ((preciseControlLoop st s f).state.mainRuns =
      (if st.newPredictionsFlag then 0 else st.mainRuns) + 1) ∧
    ((preciseControlLoop st s f).state.startedTime =
      (if st.newPredictionsFlag then s else st.startedTime)) ∧
    ((preciseThreadStartCmd st).newPredictionsFlag = true) ∧
    (∀ v : ℚ,
      (setLoopTimerCmd st (some [("loop_timer", v)])).loopTimer = v ∧
      (setLoopTimerCmd st (some [("loop_timer", v)])).newPredictionsFlag
        = true) := by
  cases hn : st.newPredictionsFlag <;>
    simp [preciseControlLoop, h, hn, specDelay, preciseThreadStartCmd,
      setLoopTimerCmd, lookupP]

/-- C5 (witness): a concrete run right after a start command, with
`loop_timer = 2`, run start 10 and run finish 11: the scheduled delay is
the spec formula's value at epoch 10, run count 0. -/
theorem C5_precise_delay_witness :
    (preciseControlLoop ⟨false, false, true, 2, 0, 5⟩ 10 11).scheduledDelay =
      some (specDelay 2 10 0 10 11) := by
  have h := (C5_precise_delay ⟨false, false, true, 2, 0, 5⟩ 10 11 rfl).1
  simpa using h

/-- C8: a new-thread request whose type identifier is not registered, or
whose name is already active, only appends an error-log entry (no other
supervisor state changes); when creation does go ahead the name was
absent from `active` and — given the reachable-state invariant
`destroyed ⊆ active` of C10 — absent from `destroyed` as well, so a name
is only (re)used when it is in neither collection. -/
theorem C8_create_child (st : TMState) (pkg : List (String × String))
    (nm ty : String)
    (hn : lookupP pkg "thread_name" = some nm)
    (ht : lookupP pkg "thread_type" = some ty)
    (hinv : st.destroyed ⊆ st.active) :
    (ty ∉ st.threadTypes.map Prod.fst →
      createNewThread st pkg = addTMLog st (.threadTypeNotFound ty)) ∧
    (ty ∈ st.threadTypes.map Prod.fst → nm ∈ st.active →
      createNewThread st pkg = addTMLog st (.nameInUse nm)) ∧
    (ty ∈ st.threadTypes.map Prod.fst → nm ∉ st.active →
      nm ∉ st.destroyed ∧
      createNewThread st pkg = { st with active := st.active ++ [nm] }) := by
  refine ⟨?_, ?_, ?_⟩
  · intro hty
    simp [createNewThread, hn, ht, hty]
  · intro hty hnm
    simp [createNewThread, hn, ht, hty, hnm]
  · intro hty hnm
    refine ⟨fun hd => hnm (hinv hd), ?_⟩
    simp [createNewThread, hn, ht, hty, hnm]

/-- C8 (witness): a fresh manager with one registered type `"T"` accepts
the creation of a child `"A"` of that type. -/
theorem C8_create_child_witness :
    createNewThread
        (⟨"M", none, [("T", "MultiRunThread")], [], [], false, []⟩ : TMState)
        [("thread_name", "A"), ("thread_type", "T")] =
      { (⟨"M", none, [("T", "MultiRunThread")], [], [], false, []⟩ : TMState)
          with active := ["A"] } := by
  have h := ((C8_create_child
      (⟨"M", none, [("T", "MultiRunThread")], [], [], false, []⟩ : TMState)
      [("thread_name", "A"), ("thread_type", "T")] "A" "T"
      (by decide) (by decide) (by decide)).2.2 (by decide) (by decide)).2
  simpa using h

/-! ## Lemmas about parameter updates -/

theorem lookupP_eq_none_iff {V : Type} :
    ∀ (l : List (String × V)) (k : String),
      lookupP l k = none ↔ k ∉ l.map Prod.fst
  | [], k => by simp [lookupP]
  | kv :: rest, k => by
      rcases eq_or_ne kv.1 k with hk | hk
      · simp [lookupP, hk]
      · simp [lookupP, hk, lookupP_eq_none_iff rest k, Ne.symm hk]

theorem updateOne_keys {V : Type} :
    ∀ (l : List (String × V)) (k : String) (v : V),
      (updateOne l k v).map Prod.fst = l.map Prod.fst
  | [], _, _ => rfl
  | kv :: rest, k, v => by
      rcases eq_or_ne kv.1 k with hk | hk
      · simp [updateOne, hk, updateOne_keys rest k v]
      · simp [updateOne, hk, updateOne_keys rest k v]

theorem lookupP_updateOne_self {V : Type} :
    ∀ (l : List (String × V)) (k : String) (v : V),
      k ∈ l.map Prod.fst → lookupP (updateOne l k v) k = some v
  | [], k, v => by simp
  | kv :: rest, k, v => by
      intro h
      rcases eq_or_ne kv.1 k with hk | hk
      · simp [updateOne, lookupP, hk]
      · rw [List.map_cons] at h
        have h' : k ∈ rest.map Prod.fst := by
          rcases List.mem_cons.mp h with h1 | h1
          · exact absurd h1.symm hk
          · exact h1
        simp [updateOne, lookupP, hk, lookupP_updateOne_self rest k v h']

theorem lookupP_updateOne_ne {V : Type} :
    ∀ (l : List (String × V)) (k k' : String) (v : V),
      k' ≠ k → lookupP (updateOne l k v) k' = lookupP l k'
  | [], _, _, _, _ => rfl
  | kv :: rest, k, k', v, h => by
      rcases eq_or_ne kv.1 k with hk | hk
      · simp [updateOne, lookupP, hk, Ne.symm h,
          lookupP_updateOne_ne rest k k' v h]
      · by_cases hkk : kv.1 = k'
        · simp [updateOne, lookupP, hk, hkk, h]
        · simp [updateOne, lookupP, hk, hkk, h,
            lookupP_updateOne_ne rest k k' v h]

theorem applyParamUpdate_keys {V : Type} (st : WorkerState V)
    (kv : String × V) :
    (applyParamUpdate st kv).parameters.map Prod.fst =
      st.parameters.map Prod.fst := by
  unfold applyParamUpdate
  split
  · exact updateOne_keys _ _ _
  · rfl

theorem applyParamUpdates_keys {V : Type} (l : List (String × V)) :
    ∀ st : WorkerState V,
      (applyParamUpdates st l).parameters.map Prod.fst =
        st.parameters.map Prod.fst := by
  induction l with
  | nil => intro st; rfl
  | cons kv rest ih =>
      intro st
      show (applyParamUpdates (applyParamUpdate st kv) rest).parameters.map
          Prod.fst = _
      rw [ih, applyParamUpdate_keys]

theorem applyParamUpdate_log {V : Type} (st : WorkerState V)
    (kv : String × V) :
    ∃ t, (applyParamUpdate st kv).errorLog = st.errorLog ++ t := by
  unfold applyParamUpdate
  split
  · exact ⟨[], by simp⟩
  · exact ⟨[.missingParameter kv.1], rfl⟩

theorem applyParamUpdates_log {V : Type} (l : List (String × V)) :
    ∀ st : WorkerState V,
      ∃ t, (applyParamUpdates st l).errorLog = st.errorLog ++ t := by
  induction l with
  | nil => intro st; exact ⟨[], by simp [applyParamUpdates]⟩
  | cons kv rest ih =>
      intro st
      obtain ⟨t1, h1⟩ := applyParamUpdate_log st kv
      obtain ⟨t2, h2⟩ := ih (applyParamUpdate st kv)
      refine ⟨t1 ++ t2, ?_⟩
      show (applyParamUpdates (applyParamUpdate st kv) rest).errorLog = _
      rw [h2, h1, List.append_assoc]

theorem applyParamUpdates_lookup_not_mem {V : Type} (l : List (String × V)) :
    ∀ (st : WorkerState V) (k : String), k ∉ l.map Prod.fst →
      lookupP (applyParamUpdates st l).parameters k =
        lookupP st.parameters k := by
  induction l with
  | nil => intro st k _; rfl
  | cons kv rest ih =>
      intro st k h
      have hk : k ≠ kv.1 := fun he => h (by simp [he])
      have hrest : k ∉ rest.map Prod.fst := fun hm => h (by simp [hm])
      show lookupP (applyParamUpdates (applyParamUpdate st kv) rest).parameters
          k = _
      rw [ih _ k hrest]
      unfold applyParamUpdate
      split
      · exact lookupP_updateOne_ne _ _ _ _ hk
      · rfl

theorem applyParamUpdates_lookup_mem {V : Type} (l : List (String × V)) :
    ∀ (st : WorkerState V) (k : String) (v : V),
      (k, v) ∈ l → (l.map Prod.fst).Nodup → k ∈ st.parameters.map Prod.fst →
      lookupP (applyParamUpdates st l).parameters k = some v := by
  induction l with
  | nil => intro st k v hmem; simp at hmem
  | cons kv rest ih =>
      intro st k v hmem hnd hk
      rw [List.map_cons] at hnd
      have hnd' := List.nodup_cons.mp hnd
      show lookupP (applyParamUpdates (applyParamUpdate st kv) rest).parameters
          k = some v
      rcases List.mem_cons.mp hmem with he | hm
      · have hkv1 : kv.1 = k := by rw [← he]
        have hkv2 : kv.2 = v := by rw [← he]
        have hknotrest : k ∉ rest.map Prod.fst := by
          rw [← hkv1]; exact hnd'.1
        rw [applyParamUpdates_lookup_not_mem rest _ k hknotrest]
        unfold applyParamUpdate
        split
        · simp only [hkv1, hkv2]
          exact lookupP_updateOne_self st.parameters k v hk
        · rename_i hcond
          have hmem1 : kv.1 ∈ st.parameters.map Prod.fst := by
            rw [hkv1]; exact hk
          exact absurd hmem1 hcond
      · have hkne : kv.1 ≠ k := by
          intro he
          have : k ∈ rest.map Prod.fst := List.mem_map_of_mem Prod.fst hm
          rw [he] at hnd'
          exact hnd'.1 this
        have hk' : k ∈ (applyParamUpdate st kv).parameters.map Prod.fst := by
          rw [applyParamUpdate_keys]; exact hk
        exact ih _ k v hm hnd'.2 hk'

theorem applyParamUpdates_missing_logged {V : Type} (l : List (String × V)) :
    ∀ (st : WorkerState V) (k : String) (v : V),
      (k, v) ∈ l → k ∉ st.parameters.map Prod.fst →
      LogEntry.missingParameter k ∈ (applyParamUpdates st l).errorLog := by
  induction l with
  | nil => intro st k v hmem; simp at hmem
  | cons kv rest ih =>
      intro st k v hmem hk
      show LogEntry.missingParameter k ∈
        (applyParamUpdates (applyParamUpdate st kv) rest).errorLog
      rcases List.mem_cons.mp hmem with he | hm
      · have hkv1 : kv.1 = k := by rw [← he]
        have hstep : LogEntry.missingParameter k ∈
            (applyParamUpdate st kv).errorLog := by
          unfold applyParamUpdate
          split
          · rename_i hcond
            rw [hkv1] at hcond
            exact absurd hcond hk
          · rw [hkv1]
            simp
        obtain ⟨t, ht⟩ := applyParamUpdates_log rest (applyParamUpdate st kv)
        rw [ht]
        exact List.mem_append_left _ hstep
      · have hk' : k ∉ (applyParamUpdate st kv).parameters.map Prod.fst := by
          rw [applyParamUpdate_keys]; exact hk
        exact ih _ k v hm hk'

/-- C9: an update-parameters message with a dict payload raises no
exception; the parameter key set is identical before and after; every
payload key present in `parameters` ends up overwritten with its payload
value; every payload key absent from `parameters` stays absent and is
logged as a missing parameter (the remaining keys still being applied);
and keys outside the payload keep their old values. -/
theorem C9_update_parameters {V : Type} (st : WorkerState V) (msg : WMsg V)
    (newParams : List (String × V))
    (hp : msg.package = some newParams)
    (hnd : (newParams.map Prod.fst).Nodup) :
    ((updateParamsH st msg).2 = none) ∧
    ((updateParamsH st msg).1.parameters.map Prod.fst =
      st.parameters.map Prod.fst) ∧
    (∀ k v, (k, v) ∈ newParams → k ∈ st.parameters.map Prod.fst →
      lookupP (updateParamsH st msg).1.parameters k = some v) ∧
    (∀ k v, (k, v) ∈ newParams → k ∉ st.parameters.map Prod.fst →
      lookupP (updateParamsH st msg).1.parameters k = none ∧
      LogEntry.missingParameter k ∈ (updateParamsH st msg).1.errorLog) ∧
    (∀ k, k ∉ newParams.map Prod.fst →
      lookupP (updateParamsH st msg).1.parameters k =
        lookupP st.parameters k) := by
  have hueq : updateParamsH st msg = (applyParamUpdates st newParams, none) := by
    unfold updateParamsH
    rw [hp]
  rw [hueq]
  refine ⟨rfl, applyParamUpdates_keys newParams st, ?_, ?_, ?_⟩
  · intro k v hmem hk
    exact applyParamUpdates_lookup_mem newParams st k v hmem hnd hk
  · intro k v hmem hk
    refine ⟨?_, applyParamUpdates_missing_logged newParams st k v hmem hk⟩
    rw [lookupP_eq_none_iff, applyParamUpdates_keys]
    exact hk
  · intro k hk
    exact applyParamUpdates_lookup_not_mem newParams st k hk

/-- C9 (witness): updating `{a: 1, b: 2}` with the payload
`{a: 5, zz: 7}` overwrites `a` with 5 (the unknown key `zz` having been
logged and skipped). -/
theorem C9_update_parameters_witness :
    lookupP ((updateParamsH
        (⟨"W", false, false, false, [("a", 1), ("b", 2)], []⟩ :
          WorkerState Nat)
        ⟨[some "X"], ["W"], "THREAD_UPDATE",
          some [("a", 5), ("zz", 7)]⟩).1).parameters "a" = some 5 := by
  exact (C9_update_parameters
      (⟨"W", false, false, false, [("a", 1), ("b", 2)], []⟩ : WorkerState Nat)
      ⟨[some "X"], ["W"], "THREAD_UPDATE", some [("a", 5), ("zz", 7)]⟩
      [("a", 5), ("zz", 7)] rfl (by decide)).2.2.1 "a" 5 (by decide)
      (by decide)

/-! ## Lemmas about the supervisor invariant -/

theorem garbageCollect_inv (alive : List String) (st : TMState)
    (h : st.destroyed ⊆ st.active) :
    (garbageCollect alive st).destroyed ⊆ (garbageCollect alive st).active := by
  intro d hd
  simp only [garbageCollect, List.mem_filter, decide_eq_true_eq] at hd ⊢
  obtain ⟨hdm, hdp⟩ := hd
  have hda : d ∈ st.active := h hdm
  refine ⟨hda, ?_⟩
  by_contra hna
  exact hdp ⟨hda, hna⟩

theorem foldl_gc_inv (oracles : List (List String)) :
    ∀ st : TMState, st.destroyed ⊆ st.active →
      (oracles.foldl (fun s a => garbageCollect a s) st).destroyed ⊆
        (oracles.foldl (fun s a => garbageCollect a s) st).active := by
  induction oracles with
  | nil => intro st h; exact h
  | cons a rest ih => intro st h; exact ih _ (garbageCollect_inv a st h)

theorem applyTMOp_inv (st : TMState) (op : TMOp)
    (h : st.destroyed ⊆ st.active) :
    (applyTMOp st op).destroyed ⊆ (applyTMOp st op).active := by
  cases op with
  | create pkg =>
      show (createNewThread st pkg).destroyed ⊆ (createNewThread st pkg).active
      unfold createNewThread
      cases lookupP pkg "thread_name" with
      | none =>
          cases lookupP pkg "thread_type" with
          | none => exact h
          | some ty => exact h
      | some nm =>
          cases lookupP pkg "thread_type" with
          | none => exact h
          | some ty =>
              by_cases hty : ty ∈ st.threadTypes.map Prod.fst
              · by_cases hnm : nm ∈ st.active
                · simp only [if_pos hty, if_pos hnm]
                  exact h
                · simp only [if_pos hty, if_neg hnm]
                  intro d hd
                  exact List.mem_append_left _ (h hd)
              · simp only [if_neg hty]
                exact h
  | destroy pkg =>
      show (destroyThread st pkg).destroyed ⊆ (destroyThread st pkg).active
      unfold destroyThread
      cases lookupP pkg "thread_name" with
      | none => exact h
      | some nm =>
          by_cases ha : nm ∈ st.active
          · by_cases hd2 : nm ∈ st.destroyed
            · simp only [if_pos ha, if_pos hd2]
              exact h
            · simp only [if_pos ha, if_neg hd2]
              intro d hd
              rcases List.mem_append.mp hd with h1 | h1
              · exact h h1
              · have : d = nm := by simpa using h1
                rw [this]
                exact ha
          · simp only [if_neg ha]
            exact h
  | gc alive => exact garbageCollect_inv alive st h
  | endCmd oracles =>
      show (threadEndTM st oracles).destroyed ⊆ (threadEndTM st oracles).active
      unfold threadEndTM
      have h1 : ({ st with destroyed := st.active } : TMState).destroyed ⊆
          ({ st with destroyed := st.active } : TMState).active :=
        fun _ hd => hd
      have h2 := foldl_gc_inv oracles _ h1
      dsimp only
      split
      · exact h2
      · exact h2
  | setTypes pkg => exact h

/-- C10: in every reachable supervisor state the destroyed-name set is
contained in the active-name set — creation only grows `active`,
`destroy_thread` only marks names it found in `active`, garbage
collection removes a name from `destroyed` whenever it deletes it from
`active`, and the shutdown sequence marks exactly the active names. -/
theorem C10_destroyed_subset_active (st : TMState) (h : TMReachable st) :
    st.destroyed ⊆ st.active := by
  induction h with
  | init name owner =>
      intro d hd
      simp [initTM] at hd
  | step st op hr ih => exact applyTMOp_inv st op ih

/-- C10 (witness): in the concrete reachable state obtained by
registering a type, creating child `"A"` and destroying it, the
destroyed name `"A"` is still in the active map. -/
theorem C10_destroyed_subset_active_witness :
    "A" ∈ (applyTMOp (applyTMOp (applyTMOp (initTM "M" none)
        (.setTypes [("T", "MultiRunThread")]))
        (.create [("thread_name", "A"), ("thread_type", "T")]))
        (.destroy [("thread_name", "A")])).active := by
  have h := C10_destroyed_subset_active _
    (TMReachable.step _ (TMOp.destroy [("thread_name", "A")])
      (TMReachable.step _
        (TMOp.create [("thread_name", "A"), ("thread_type", "T")])
        (TMReachable.step _ (TMOp.setTypes [("T", "MultiRunThread")])
          (TMReachable.init "M" none))))
  exact h (by decide)

end PySimpleApp
